import Mathlib

/-!
Verification development for the sq_cache repository: a sharded LRU cache
with per-entry TTL, periodic cleanup and telemetry counters.

The Go sources are shallowly embedded as follows.

* Keys (the IKey constraint, string in the default instantiation) are `String`;
  values are a type parameter `V`.
* `time.Time` values are modelled as `Nat` ticks; the zero `time.Time`
  (for which IsZero reports true) is `0`, and `t.Before(now)` is `t < now`.
* The intrusive doubly-linked recency list (lru_list part of the sources,
  ported from container/list) is modelled by the sequence of keys it links,
  front (most recently used) first.  PushFront is cons, Back is the last
  element, Remove of a node is erasure of its key, and MoveToFront keeps the
  guard of the source (node must belong to the list; already-front is a no-op).
* The Go map from key to node is modelled as an association list
  `List (String × V × Nat)` holding key, value and TTL; map deletion removes
  the entries carrying the deleted key.
* The sync.Pool of nodes is modelled by the number of pooled nodes:
  getItemFromPool decrements it (Get on an empty pool allocates, which leaves
  the modelled count at zero), putItemInPool would increment it.
* The five configured callback hooks (onAdd/onUpdate/onHit/onMiss/onEvict,
  src/utils.go) only write log lines; their invocations are modelled as a
  list of `CacheEvent` values returned by each shard operation.  Note that no
  code path of the repository ever mutates the `telemetry` counter struct of
  a shard, so the counters stay at their zero initial values.
* Fallible cache methods return a `GoResult`; a Go runtime panic (index out
  of range, nil dereference) is the `panics` outcome.
-/

set_option linter.unusedVariables false

/-- Telemetry/logging hook invocation emitted by a shard operation.  Each
constructor corresponds to one of the five configured callbacks of
src/utils.go, carrying the key it was invoked for. -/
inductive CacheEvent where
  | add (key : String)
  | update (key : String)
  | hit (key : String)
  | miss (key : String)
  | evict (key : String)
deriving DecidableEq, Repr

/-- Counter struct of src/telemetry.go: five atomic Int64 counters.  The
SetXCounter methods store (overwrite) a value; GetXCounter loads it. -/
structure telemetry where
  Add : Int
  Update : Int
  Hit : Int
  Miss : Int
  Evict : Int
deriving DecidableEq, Repr

/-- newTelemetry of src/telemetry.go: all counters start at zero. -/
def newTelemetry : telemetry :=
  { Add := 0, Update := 0, Hit := 0, Miss := 0, Evict := 0 }

/-- Resolved configuration (src/config.go) as consumed by the constructor
after the external default/user merge step.  The five callback hooks are
modelled as `CacheEvent` emission and are not stored here. -/
structure Config (V : Type) where
  LoggingOn : Bool
  TelemetryOn : Bool
  MaxShards : Nat
  MaxItems : Nat
  ExpiryDurationInSeconds : Nat
  CleanupDurationInSeconds : Nat
  GenerateKey : V → String
  GenerateShardId : String → Nat → Nat

/-- One lru cache shard (unnamed source part_000): the recency list (as its
front-to-back key sequence), the nodes map (as an association list of key,
value and TTL), the pooled-node count, the per-shard counter struct and the
configuration fields the shard copies at construction.  The never-read `id`
field is omitted. -/
structure lruCacheShard (V : Type) where
  maxItems : Nat
  loggingOn : Bool
  telemetryOn : Bool
  list : List String
  nodesPool : Nat
  nodes : List (String × V × Nat)
  telem : telemetry
deriving Repr

/-- newLRUCacheShard: empty list, empty map, fresh pool, zero counters,
configuration fields copied from the resolved config. -/
def newLRUCacheShard (config : Config V) : lruCacheShard V :=
  { maxItems := config.MaxItems
    loggingOn := config.LoggingOn
    telemetryOn := config.TelemetryOn
    list := []
    nodesPool := 0
    nodes := []
    telem := newTelemetry }

/-- Lookup in the nodes map: the Go map access nodes[key].  Returns the value
and TTL of the first entry carrying the key. -/
def lookupNode (nodes : List (String × V × Nat)) (key : String) : Option (V × Nat) :=
  match nodes with
  | [] => none
  | (k, v, t) :: rest => if k = key then some (v, t) else lookupNode rest key

/-- Keys of the nodes map. -/
def nodeKeys (nodes : List (String × V × Nat)) : List String :=
  nodes.map Prod.fst

namespace lruCacheShard

variable {V : Type}

/-- lruList.MoveToFront: no-op when the node does not belong to the list or
is already at the front; otherwise unlink it and relink it at the front. -/
def moveToFront (list : List String) (key : String) : List String :=
  if key ∈ list then
    if list.head? = some key then list else key :: list.erase key
  else list

/-- removeItem: unlink the node from the recency list, delete its key from
the map, and (when telemetry is on) invoke the onEvict callback. -/
def removeItem (shard : lruCacheShard V) (key : String) :
    lruCacheShard V × List CacheEvent :=
  ({ shard with
      list := shard.list.erase key
      nodes := shard.nodes.filter (fun e => decide (e.1 ≠ key)) },
   if shard.telemetryOn then [CacheEvent.evict key] else [])

/-- removeItemOldest: remove the back (least recently used) node, if the
list is non-empty. -/
def removeItemOldest (shard : lruCacheShard V) : lruCacheShard V × List CacheEvent :=
  match shard.list.getLast? with
  | some key => removeItem shard key
  | none => (shard, [])

/-- lruCacheShard.Set: draw a node from the pool, then either update the
existing entry in place (move-to-front, onUpdate) returning (false, false),
or push the new entry to the front, insert it in the map (onAdd) and — iff
the supplied cache-wide length has reached maxItems — evict the back entry,
returning (true, false); a non-evicting insert returns (false, true). -/
def Set (shard : lruCacheShard V) (cacheLen : Int) (key : String) (value : V)
    (ttl : Nat) : lruCacheShard V × Bool × Bool × List CacheEvent :=
  let shard := { shard with nodesPool := shard.nodesPool - 1 }
  match lookupNode shard.nodes key with
  | some _ =>
      let shard := { shard with
        list := moveToFront shard.list key
        nodes := shard.nodes.map (fun e => if e.1 = key then (key, value, ttl) else e) }
      (shard, false, false, if shard.telemetryOn then [CacheEvent.update key] else [])
  | none =>
      let shard := { shard with
        list := key :: shard.list
        nodes := (key, value, ttl) :: shard.nodes }
      let evs := if shard.telemetryOn then [CacheEvent.add key] else []
      if cacheLen ≥ (shard.maxItems : Int) then
        let res := removeItemOldest shard
        (res.1, true, false, evs ++ res.2)
      else
        (shard, false, true, evs)

/-- lruCacheShard.Get: on a hit move the entry to the front (onHit) and
return its value; on a miss (onMiss) return nothing.  Updates recency. -/
def Get (shard : lruCacheShard V) (key : String) :
    lruCacheShard V × Option V × List CacheEvent :=
  match lookupNode shard.nodes key with
  | some (v, _) =>
      ({ shard with list := moveToFront shard.list key },
       some v,
       if shard.telemetryOn then [CacheEvent.hit key] else [])
  | none =>
      (shard, none, if shard.telemetryOn then [CacheEvent.miss key] else [])

/-- lruCacheShard.Contains: hit/miss callback like Get, but never reorders
the list and never mutates the shard. -/
def Contains (shard : lruCacheShard V) (key : String) : Bool × List CacheEvent :=
  match lookupNode shard.nodes key with
  | some _ => (true, if shard.telemetryOn then [CacheEvent.hit key] else [])
  | none => (false, if shard.telemetryOn then [CacheEvent.miss key] else [])

/-- lruCacheShard.Peek: value lookup without reordering; hit/miss callback
like Get. -/
def Peek (shard : lruCacheShard V) (key : String) : Option V × List CacheEvent :=
  match lookupNode shard.nodes key with
  | some (v, _) => (some v, if shard.telemetryOn then [CacheEvent.hit key] else [])
  | none => (none, if shard.telemetryOn then [CacheEvent.miss key] else [])

/-- lruCacheShard.Remove: a present key goes through removeItem (which fires
the onEvict callback and does not return the node to the pool); an absent
key fires onMiss and reports false. -/
def Remove (shard : lruCacheShard V) (key : String) :
    lruCacheShard V × Bool × List CacheEvent :=
  match lookupNode shard.nodes key with
  | some _ =>
      let res := removeItem shard key
      (res.1, true, res.2)
  | none =>
      (shard, false, if shard.telemetryOn then [CacheEvent.miss key] else [])

/-- Loop body of CleanupShard: iterate over the listed map entries and
removeItem every entry whose TTL is before now and not the zero time,
counting the removals. -/
def cleanupLoop (shard : lruCacheShard V) (items : List (String × V × Nat))
    (now : Nat) : lruCacheShard V × Nat × List CacheEvent :=
  match items with
  | [] => (shard, 0, [])
  | (k, _, t) :: rest =>
      if t < now ∧ t ≠ 0 then
        let res := removeItem shard k
        let rec' := cleanupLoop res.1 rest now
        (rec'.1, rec'.2.1 + 1, res.2 ++ rec'.2.2)
      else
        cleanupLoop shard rest now

/-- lruCacheShard.CleanupShard: sweep the whole map at time now. -/
def CleanupShard (shard : lruCacheShard V) (now : Nat) :
    lruCacheShard V × Nat × List CacheEvent :=
  cleanupLoop shard shard.nodes now

/-- lruCacheShard.Purge: replace list, pool and map by fresh empty
instances; the telemetry struct is kept. -/
def Purge (shard : lruCacheShard V) : lruCacheShard V :=
  { shard with list := [], nodesPool := 0, nodes := [] }

/-- lruCacheShard.Telemetry: the shard's counter struct. -/
def Telemetry (shard : lruCacheShard V) : telemetry :=
  shard.telem

/-- lruCacheShard.TelemetryReset: fresh zero counters. -/
def TelemetryReset (shard : lruCacheShard V) : lruCacheShard V :=
  { shard with telem := newTelemetry }

end lruCacheShard

/-- One shard-level operation, for stating properties of arbitrary
operation sequences on a single shard. -/
inductive ShardOp (V : Type) where
  | set (cacheLen : Int) (key : String) (value : V) (ttl : Nat)
  | get (key : String)
  | peek (key : String)
  | contains (key : String)
  | remove (key : String)
  | cleanup (now : Nat)
  | purge

/-- Apply one shard operation to a shard state (read-only operations leave
the state unchanged). -/
def applyShardOp (shard : lruCacheShard V) (op : ShardOp V) : lruCacheShard V :=
  match op with
  | .set cacheLen key value ttl => (shard.Set cacheLen key value ttl).1
  | .get key => (shard.Get key).1
  | .peek _ => shard
  | .contains _ => shard
  | .remove key => (shard.Remove key).1
  | .cleanup now => (shard.CleanupShard now).1
  | .purge => shard.Purge

/-- Run a sequence of shard operations. -/
def runShardOps (shard : lruCacheShard V) (ops : List (ShardOp V)) : lruCacheShard V :=
  ops.foldl applyShardOp shard

/-- The dual-indexing well-formedness of a shard: the recency list and the
map keys are duplicate-free and index exactly the same keys. -/
def ShardWF (shard : lruCacheShard V) : Prop :=
  shard.list.Nodup ∧ (nodeKeys shard.nodes).Nodup ∧
    ∀ k, k ∈ shard.list ↔ k ∈ nodeKeys shard.nodes

/-!
The default shard-routing function generateShardId (src/utils.go) hashes the
key with SHA-1 (crypto/sha1 of the Go standard library, FIPS 180-1), reads
the first 8 digest bytes as a big-endian unsigned 64-bit integer and reduces
it modulo the supplied maxItems value.  SHA-1 is embedded below over `Nat`
with explicit reduction modulo 2^32.
-/

/-- Word-size masking: reduce modulo 2^32. -/
def mask32 (x : Nat) : Nat := x % 4294967296

/-- Left rotation of a 32-bit word. -/
def rotl32 (x n : Nat) : Nat :=
  mask32 ((x <<< n) ||| (x >>> (32 - n)))

/-- Big-endian byte encoding of a value into n bytes. -/
def toBytesBE (n : Nat) (v : Nat) : List Nat :=
  match n with
  | 0 => []
  | m + 1 => toBytesBE m (v / 256) ++ [v % 256]

/-- Big-endian read of a byte list as one unsigned integer
(binary.BigEndian.Uint64 when given 8 bytes). -/
def fromBytesBE (bytes : List Nat) : Nat :=
  bytes.foldl (fun acc b => acc * 256 + b) 0

/-- SHA-1 message padding: append 0x80, zero bytes up to 56 mod 64, then the
bit length in 8 big-endian bytes. -/
def sha1Pad (msg : List Nat) : List Nat :=
  let len := msg.length
  let zeros := (119 - len % 64) % 64
  msg ++ [128] ++ List.replicate zeros 0 ++ toBytesBE 8 (8 * len)

/-- Split 64 bytes into 16 big-endian 32-bit words. -/
def wordsOfBlock (block : List Nat) : List Nat :=
  match block with
  | b0 :: b1 :: b2 :: b3 :: rest =>
      (((b0 * 256 + b1) * 256 + b2) * 256 + b3) :: wordsOfBlock rest
  | _ => []

/-- Message-schedule word at index i (0 when out of range). -/
def wAt (ws : List Nat) (i : Nat) : Nat := ws.getD i 0

/-- Extend the 16 schedule words to 80: each new word is the xor of the words
3, 8, 14 and 16 positions back, rotated left by one. -/
def sha1Extend (ws : List Nat) (count : Nat) : List Nat :=
  match count with
  | 0 => ws
  | c + 1 =>
      let j := ws.length
      let w := rotl32 ((wAt ws (j - 3)) ^^^ (wAt ws (j - 8)) ^^^
                       (wAt ws (j - 14)) ^^^ (wAt ws (j - 16))) 1
      sha1Extend (ws ++ [w]) c

/-- Round function: choose for rounds 0-19, parity for 20-39 and 60-79,
majority for 40-59. -/
def sha1F (t b c d : Nat) : Nat :=
  if t < 20 then (b &&& c) ||| ((b ^^^ 4294967295) &&& d)
  else if t < 40 then b ^^^ c ^^^ d
  else if t < 60 then (b &&& c) ||| (b &&& d) ||| (c &&& d)
  else b ^^^ c ^^^ d

/-- Round constant per 20-round group. -/
def sha1K (t : Nat) : Nat :=
  if t < 20 then 1518500249
  else if t < 40 then 1859775393
  else if t < 60 then 2400959708
  else 3395469782

/-- The 80 compression rounds over the schedule words. -/
def sha1Rounds (st : Nat × Nat × Nat × Nat × Nat) (ws : List Nat) (t : Nat) :
    Nat × Nat × Nat × Nat × Nat :=
  match ws with
  | [] => st
  | w :: rest =>
      let a := st.1
      let b := st.2.1
      let c := st.2.2.1
      let d := st.2.2.2.1
      let e := st.2.2.2.2
      let temp := mask32 (rotl32 a 5 + sha1F t b c d + e + sha1K t + w)
      sha1Rounds (temp, a, rotl32 b 30, c, d) rest (t + 1)

/-- Compress one 64-byte block into the running digest state. -/
def sha1Block (h : Nat × Nat × Nat × Nat × Nat) (block : List Nat) :
    Nat × Nat × Nat × Nat × Nat :=
  let ws := sha1Extend (wordsOfBlock block) 64
  let st := sha1Rounds h ws 0
  (mask32 (h.1 + st.1), mask32 (h.2.1 + st.2.1), mask32 (h.2.2.1 + st.2.2.1),
   mask32 (h.2.2.2.1 + st.2.2.2.1), mask32 (h.2.2.2.2 + st.2.2.2.2))

/-- Fold the digest state over the given number of 64-byte blocks. -/
def sha1Blocks (h : Nat × Nat × Nat × Nat × Nat) (bytes : List Nat)
    (nblocks : Nat) : Nat × Nat × Nat × Nat × Nat :=
  match nblocks with
  | 0 => h
  | n + 1 => sha1Blocks (sha1Block h (bytes.take 64)) (bytes.drop 64) n

/-- SHA-1 digest of a byte sequence, as its 20 bytes. -/
def sha1Bytes (msg : List Nat) : List Nat :=
  let padded := sha1Pad msg
  let st := sha1Blocks
    (1732584193, 4023233417, 2562383102, 271733878, 3285377520)
    padded (padded.length / 64)
  toBytesBE 4 st.1 ++ toBytesBE 4 st.2.1 ++ toBytesBE 4 st.2.2.1 ++
    toBytesBE 4 st.2.2.2.1 ++ toBytesBE 4 st.2.2.2.2

/-- Bytes of a key string, as produced by the Go conversion from string to a
byte slice (the embedding covers ASCII keys, for which the UTF-8 encoding is
one byte per character). -/
def stringToBytes (s : String) : List Nat :=
  s.data.map Char.toNat

/-- generateShardId of src/utils.go: SHA-1 the key, read the first 8 digest
bytes big-endian and reduce modulo the maxItems argument — the function is
handed the configured max-items value, not the shard count. -/
def generateShardId (key : String) (maxItems : Nat) : Nat :=
  fromBytesBE ((sha1Bytes (stringToBytes key)).take 8) % maxItems

/-- Lifecycle status of the cache (src/lru_cache.go). -/
inductive CacheStatus where
  | Opened
  | Started
  | Stopped
  | Closed
deriving DecidableEq, Repr

/-- Outcome of a fallible cache method: a Go runtime panic, an error return,
or a successful return value. -/
inductive GoResult (α : Type) where
  | panics
  | fails (msg : String)
  | ok (val : α)
deriving DecidableEq

/-- The sharded cache (src/lru_cache.go).  The context, locks, channels and
the cleanup ticker goroutine are concurrency plumbing with no sequential
effect and are not part of the state; the periodic sweep itself is the
cleanupShards operation below. -/
structure LRUCache (V : Type) where
  maxShards : Nat
  maxItems : Nat
  len : Int
  loggingOn : Bool
  telemetryOn : Bool
  expiryDurationInSeconds : Nat
  cleanupDurationInSeconds : Nat
  generateKey : V → String
  generateShardId : String → Nat → Nat
  status : CacheStatus
  shards : List (lruCacheShard V)

/-- NewLRUCache, given the already-merged configuration: allocates MaxShards
shards and starts the cache.  The struct literal of the source never assigns
the cache's telemetryOn field, so it keeps the Go zero value false (the
shards do receive config.TelemetryOn); the status is Opened in the literal
and advanced to Started by the cache.Start() call of the constructor. -/
def NewLRUCache (config : Config V) : LRUCache V :=
  { maxShards := config.MaxShards
    maxItems := config.MaxItems
    len := 0
    loggingOn := config.LoggingOn
    telemetryOn := false
    expiryDurationInSeconds := config.ExpiryDurationInSeconds
    cleanupDurationInSeconds := config.CleanupDurationInSeconds
    generateKey := config.GenerateKey
    generateShardId := config.GenerateShardId
    status := CacheStatus.Started
    shards := List.replicate config.MaxShards (newLRUCacheShard config) }

namespace LRUCache

variable {V : Type}

/-- LRUCache.Len: the approximate total item counter. -/
def Len (cache : LRUCache V) : Int := cache.len

/-- LRUCache.Set: lifecycle gate, key derivation for the empty key, zero TTL,
shard routing via generateShardId applied to the key and maxItems, then the
shard set; the total is decremented iff a capacity eviction occurred and then
incremented unconditionally.  Indexing the shard array out of range is a
panic. -/
def Set (cache : LRUCache V) (key : String) (value : V) :
    GoResult (LRUCache V × String) :=
  match cache.status with
  | CacheStatus.Closed => GoResult.fails "cache is closed"
  | CacheStatus.Stopped =>
      GoResult.fails "cache is stopped, must be started before calling method Set()"
  | _ =>
      let key := if key = "" then cache.generateKey value else key
      let ttl : Nat := 0
      let shardId := cache.generateShardId key cache.maxItems
      match cache.shards[shardId]? with
      | none => GoResult.panics
      | some shard =>
          let res := shard.Set cache.len key value ttl
          let len1 := if res.2.1 then cache.len - 1 else cache.len
          GoResult.ok
            ({ cache with shards := cache.shards.set shardId res.1, len := len1 + 1 },
             key)

/-- LRUCache.SetWithTTL: like Set but with an expiry timestamp of now plus
the requested duration (or now plus the configured default when the duration
is zero).  The current time is passed explicitly. -/
def SetWithTTL (cache : LRUCache V) (now : Nat) (key : String) (value : V)
    (duration : Nat) : GoResult (LRUCache V × String) :=
  match cache.status with
  | CacheStatus.Closed => GoResult.fails "cache is closed"
  | CacheStatus.Stopped =>
      GoResult.fails "cache is stopped, must be started before calling method SetWithTTL()"
  | _ =>
      let key := if key = "" then cache.generateKey value else key
      let ttl := if duration > 0 then now + duration
                 else now + cache.expiryDurationInSeconds
      let shardId := cache.generateShardId key cache.maxItems
      match cache.shards[shardId]? with
      | none => GoResult.panics
      | some shard =>
          let res := shard.Set cache.len key value ttl
          let len1 := if res.2.1 then cache.len - 1 else cache.len
          GoResult.ok
            ({ cache with shards := cache.shards.set shardId res.1, len := len1 + 1 },
             key)

/-- LRUCache.Get: lifecycle gate, route, delegate to the shard get (which
reorders the recency list, so the resulting cache is returned too). -/
def Get (cache : LRUCache V) (key : String) : GoResult (LRUCache V × Option V) :=
  match cache.status with
  | CacheStatus.Closed => GoResult.fails "cache is closed"
  | CacheStatus.Stopped =>
      GoResult.fails "cache is stopped, must be started before calling method Get()"
  | _ =>
      let shardId := cache.generateShardId key cache.maxItems
      match cache.shards[shardId]? with
      | none => GoResult.panics
      | some shard =>
          let res := shard.Get key
          GoResult.ok ({ cache with shards := cache.shards.set shardId res.1 }, res.2.1)

/-- LRUCache.Contains: lifecycle gate, route, delegate (no state change). -/
def Contains (cache : LRUCache V) (key : String) : GoResult Bool :=
  match cache.status with
  | CacheStatus.Closed => GoResult.fails "cache is closed"
  | CacheStatus.Stopped =>
      GoResult.fails "cache is stopped, must be started before calling method Contains()"
  | _ =>
      let shardId := cache.generateShardId key cache.maxItems
      match cache.shards[shardId]? with
      | none => GoResult.panics
      | some shard => GoResult.ok (shard.Contains key).1

/-- LRUCache.Peek: lifecycle gate, route, delegate (no state change). -/
def Peek (cache : LRUCache V) (key : String) : GoResult (Option V) :=
  match cache.status with
  | CacheStatus.Closed => GoResult.fails "cache is closed"
  | CacheStatus.Stopped =>
      GoResult.fails "cache is stopped, must be started before calling method Peek()"
  | _ =>
      let shardId := cache.generateShardId key cache.maxItems
      match cache.shards[shardId]? with
      | none => GoResult.panics
      | some shard => GoResult.ok (shard.Peek key).1

/-- LRUCache.Remove: lifecycle gate, route, delegate, then decrement the
total counter unconditionally — also when the key was absent. -/
def Remove (cache : LRUCache V) (key : String) : GoResult (LRUCache V × Bool) :=
  match cache.status with
  | CacheStatus.Closed => GoResult.fails "cache is closed"
  | CacheStatus.Stopped =>
      GoResult.fails "cache is stopped, must be started before calling method Remove()"
  | _ =>
      let shardId := cache.generateShardId key cache.maxItems
      match cache.shards[shardId]? with
      | none => GoResult.panics
      | some shard =>
          let res := shard.Remove key
          GoResult.ok
            ({ cache with shards := cache.shards.set shardId res.1, len := cache.len - 1 },
             res.2.1)

/-- LRUCache.Purge: rejected while Closed or Started; otherwise every shard
is purged.  The total counter is left untouched. -/
def Purge (cache : LRUCache V) : GoResult (LRUCache V) :=
  match cache.status with
  | CacheStatus.Closed => GoResult.fails "cache is closed"
  | CacheStatus.Started =>
      GoResult.fails "cache is started, must be stopped before calling method Purge()"
  | _ =>
      GoResult.ok { cache with shards := cache.shards.map lruCacheShard.Purge }

/-- cleanupShards: fan the sweep out to every shard at time now, then add
each shard's evict count to the total counter (the source adds the count,
len.Add(evictCount)). -/
def cleanupShards (cache : LRUCache V) (now : Nat) : LRUCache V :=
  let results := cache.shards.map (fun s => s.CleanupShard now)
  { cache with
      shards := results.map (fun r => r.1)
      len := cache.len + (results.map (fun r => (r.2.1 : Int))).sum }

/-- Aggregation loop of LRUCache.Telemetry: the accumulator starts as the
nil pointer of the named return value; each iteration calls the setter
methods on it, overwriting each counter with the current shard's value.  A
setter invoked on the nil accumulator dereferences it: the outer none models
that panic, and the inner option is the possibly-nil returned pointer. -/
def telemetryAggregate (snaps : List telemetry) (acc : Option telemetry) :
    Option (Option telemetry) :=
  match snaps with
  | [] => some acc
  | s :: rest =>
      match acc with
      | none => none
      | some t =>
          telemetryAggregate rest
            (some { t with Hit := s.Hit, Miss := s.Miss, Add := s.Add,
                           Update := s.Update, Evict := s.Evict })

/-- LRUCache.Telemetry: rejected while Closed; rejected whenever the cache's
telemetryOn field is false; otherwise run the aggregation loop over the
shard snapshots. -/
def Telemetry (cache : LRUCache V) : GoResult (Option telemetry) :=
  match cache.status with
  | CacheStatus.Closed => GoResult.fails "cache is closed"
  | _ =>
      if !cache.telemetryOn then GoResult.fails "cache telemetry is disabled"
      else
        match telemetryAggregate (cache.shards.map (fun s => s.telem)) none with
        | none => GoResult.panics
        | some t => GoResult.ok t

end LRUCache

/-- One cache-level operation of a sequential execution.  Operations carrying
a now parameter receive the current time explicitly. -/
inductive CacheOp (V : Type) where
  | set (key : String) (value : V)
  | setWithTTL (now : Nat) (key : String) (value : V) (duration : Nat)
  | get (key : String)
  | contains (key : String)
  | peek (key : String)
  | remove (key : String)
  | cleanup (now : Nat)

/-- Apply one cache operation, keeping the new state of a successful
mutation and leaving the state unchanged on an error, a panic or a
read-only operation. -/
def applyCacheOp (cache : LRUCache V) (op : CacheOp V) : LRUCache V :=
  match op with
  | .set k v => match cache.Set k v with | .ok r => r.1 | _ => cache
  | .setWithTTL now k v d =>
      match cache.SetWithTTL now k v d with | .ok r => r.1 | _ => cache
  | .get k => match cache.Get k with | .ok r => r.1 | _ => cache
  | .contains _ => cache
  | .peek _ => cache
  | .remove k => match cache.Remove k with | .ok r => r.1 | _ => cache
  | .cleanup now => cache.cleanupShards now

/-- Run a sequence of cache operations. -/
def runCacheOps (cache : LRUCache V) (ops : List (CacheOp V)) : LRUCache V :=
  ops.foldl applyCacheOp cache

/-- The default configuration built by NewLRUCache (src/lru_cache.go):
256 shards, a one-million-item threshold, logging and telemetry on, a 24 h
default TTL, a 5 min cleanup interval and the SHA-1 based routing function.
The default GenerateKey hashes a byte-slice value; it is never consulted for
the non-empty keys used here, so the value type is instantiated at Nat with
a stub key generator. -/
def defaultConfig : Config Nat :=
  { LoggingOn := true
    TelemetryOn := true
    MaxShards := 256
    MaxItems := 1000000
    ExpiryDurationInSeconds := 86400
    CleanupDurationInSeconds := 300
    GenerateKey := fun _ => ""
    GenerateShardId := generateShardId }

/-- A single-shard configuration with a user-supplied routing function that
sends every key to shard zero, used for sequential scenarios; telemetry
requested on. -/
def oneShardConfig : Config Nat :=
  { LoggingOn := false
    TelemetryOn := true
    MaxShards := 1
    MaxItems := 1000000
    ExpiryDurationInSeconds := 86400
    CleanupDurationInSeconds := 300
    GenerateKey := fun _ => ""
    GenerateShardId := fun _ _ => 0 }

/-- Like oneShardConfig but with a capacity threshold of two items, matching
the LRU-order scenario of the specification. -/
def capacityTwoConfig : Config Nat :=
  { oneShardConfig with MaxItems := 2 }

/-- The sweep condition of CleanupShard: the TTL is before now and is not
the zero time. -/
def ttlExpired (now : Nat) (e : String × V × Nat) : Bool :=
  decide (e.2.2 < now ∧ e.2.2 ≠ 0)

/-- A concrete shard holding an expired entry and a never-expiring entry,
used to instantiate the cleanup-sweep theorem. -/
def cleanupDemoShard : lruCacheShard Nat :=
  { maxItems := 10
    loggingOn := false
    telemetryOn := true
    list := ["a", "b"]
    nodesPool := 0
    nodes := [("a", 1, 5), ("b", 2, 0)]
    telem := newTelemetry }

/-- A concrete shard holding one entry whose expiry is tick 5, used to
instantiate the TTL-read theorem. -/
def ttlDemoShard : lruCacheShard Nat :=
  { maxItems := 10
    loggingOn := false
    telemetryOn := true
    list := ["k"]
    nodesPool := 0
    nodes := [("k", 7, 5)]
    telem := newTelemetry }

/-- A concrete shard holding one never-expiring entry, used to instantiate
the remove-behavior theorem. -/
def removeDemoShard : lruCacheShard Nat :=
  { maxItems := 10
    loggingOn := false
    telemetryOn := true
    list := ["k"]
    nodesPool := 3
    nodes := [("k", 7, 0)]
    telem := newTelemetry }

/-! ### Helper lemmas about the nodes map and the recency list -/

lemma mem_nodeKeys {V : Type} (nodes : List (String × V × Nat)) (key : String) :
    key ∈ nodeKeys nodes ↔ ∃ y ∈ nodes, y.1 = key := by
  simp [nodeKeys]

lemma nodeKeys_nil {V : Type} : nodeKeys ([] : List (String × V × Nat)) = [] := rfl

lemma nodeKeys_cons {V : Type} (e : String × V × Nat) (l : List (String × V × Nat)) :
    nodeKeys (e :: l) = e.1 :: nodeKeys l := rfl

lemma nodeKeys_filter_ne {V : Type} (nodes : List (String × V × Nat)) (key : String) :
    nodeKeys (nodes.filter (fun e => decide (e.1 ≠ key))) =
      (nodeKeys nodes).filter (fun x => decide (x ≠ key)) := by
  induction nodes with
  | nil => rfl
  | cons e rest ih =>
      by_cases h : e.1 = key <;>
        simp [nodeKeys, List.filter_cons, h] at ih ⊢ <;> exact ih

lemma nodeKeys_update {V : Type} (nodes : List (String × V × Nat)) (key : String)
    (value : V) (ttl : Nat) :
    nodeKeys (nodes.map (fun e => if e.1 = key then (key, value, ttl) else e)) =
      nodeKeys nodes := by
  induction nodes with
  | nil => rfl
  | cons e rest ih =>
      by_cases h : e.1 = key <;> simp [nodeKeys, h] at ih ⊢ <;> exact ih

lemma lookupNode_eq_none {V : Type} (nodes : List (String × V × Nat)) (key : String) :
    lookupNode nodes key = none ↔ key ∉ nodeKeys nodes := by
  induction nodes with
  | nil => simp [lookupNode, nodeKeys_nil]
  | cons e rest ih =>
      obtain ⟨k, v, t⟩ := e
      rw [lookupNode, nodeKeys_cons, List.mem_cons]
      by_cases h : k = key
      · subst h
        simp
      · rw [if_neg h, ih]
        have hne : ¬ key = k := fun hk => h hk.symm
        tauto

lemma eq_of_nodupKeys_of_mem {V : Type} {nodes : List (String × V × Nat)}
    (hnd : (nodeKeys nodes).Nodup) {a b : String × V × Nat}
    (ha : a ∈ nodes) (hb : b ∈ nodes) (hab : a.1 = b.1) : a = b := by
  induction nodes with
  | nil => cases ha
  | cons e rest ih =>
      rw [nodeKeys_cons, List.nodup_cons] at hnd
      rcases List.mem_cons.1 ha with ha' | ha' <;>
        rcases List.mem_cons.1 hb with hb' | hb'
      · exact ha'.trans hb'.symm
      · exfalso
        apply hnd.1
        refine (mem_nodeKeys rest e.1).2 ⟨b, hb', ?_⟩
        rw [← hab, ha']
      · exfalso
        apply hnd.1
        refine (mem_nodeKeys rest e.1).2 ⟨a, ha', ?_⟩
        rw [hab, hb']
      · exact ih hnd.2 ha' hb'

lemma lookupNode_of_mem {V : Type} {nodes : List (String × V × Nat)}
    {key : String} {v : V} {t : Nat}
    (hnd : (nodeKeys nodes).Nodup) (hmem : (key, v, t) ∈ nodes) :
    lookupNode nodes key = some (v, t) := by
  induction nodes with
  | nil => cases hmem
  | cons e rest ih =>
      obtain ⟨k, v', t'⟩ := e
      rw [nodeKeys_cons, List.nodup_cons] at hnd
      rcases List.mem_cons.1 hmem with h | h
      · cases h
        rw [lookupNode, if_pos rfl]
      · by_cases hk : k = key
        · exfalso
          apply hnd.1
          rw [show ((k, v', t') : String × V × Nat).1 = key from hk]
          exact (mem_nodeKeys rest key).2 ⟨(key, v, t), h, rfl⟩
        · rw [lookupNode, if_neg hk]
          exact ih hnd.2 h

lemma mem_moveToFront {l : List String} {k x : String} :
    x ∈ lruCacheShard.moveToFront l k ↔ x ∈ l := by
  unfold lruCacheShard.moveToFront
  by_cases hmem : k ∈ l
  · simp only [hmem, if_true]
    by_cases hhead : l.head? = some k
    · simp [hhead]
    · simp only [hhead, if_false, List.mem_cons]
      by_cases hx : x = k
      · subst hx; simp [hmem]
      · simp [hx, List.mem_erase_of_ne hx]
  · simp [hmem]

lemma nodup_moveToFront {l : List String} {k : String} (hl : l.Nodup) :
    (lruCacheShard.moveToFront l k).Nodup := by
  unfold lruCacheShard.moveToFront
  by_cases hmem : k ∈ l
  · simp only [hmem, if_true]
    by_cases hhead : l.head? = some k
    · simp [hhead, hl]
    · simp only [hhead, if_false]
      refine List.nodup_cons.2 ⟨?_, List.Nodup.erase k hl⟩
      intro hk
      exact ((hl.mem_erase_iff).1 hk).1 rfl
  · simp [hmem, hl]

/-! ### Preservation of the shard's dual-indexing invariant -/

lemma removeItem_WF {V : Type} {shard : lruCacheShard V} (h : ShardWF shard)
    (key : String) : ShardWF (shard.removeItem key).1 := by
  obtain ⟨hl, hn, hiff⟩ := h
  refine ⟨List.Nodup.erase key hl, ?_, ?_⟩
  · rw [lruCacheShard.removeItem]
    simp only
    rw [nodeKeys_filter_ne]
    exact List.Nodup.filter _ hn
  · intro x
    rw [lruCacheShard.removeItem]
    simp only
    rw [nodeKeys_filter_ne, hl.mem_erase_iff, List.mem_filter]
    rw [hiff x]
    simp only [decide_eq_true_eq]
    tauto

lemma removeItemOldest_WF {V : Type} {shard : lruCacheShard V} (h : ShardWF shard) :
    ShardWF shard.removeItemOldest.1 := by
  rw [lruCacheShard.removeItemOldest]
  cases hlast : shard.list.getLast? with
  | none => exact h
  | some key => exact removeItem_WF h key

lemma WF_pushFront {V : Type} {shard : lruCacheShard V} (h : ShardWF shard)
    {key : String} (hkey : key ∉ nodeKeys shard.nodes) (value : V) (ttl : Nat)
    (pool : Nat) :
    ShardWF { shard with
                nodesPool := pool
                list := key :: shard.list
                nodes := (key, value, ttl) :: shard.nodes } := by
  obtain ⟨hl, hn, hiff⟩ := h
  have hkeyl : key ∉ shard.list := fun hk => hkey ((hiff key).1 hk)
  refine ⟨List.nodup_cons.2 ⟨hkeyl, hl⟩, ?_, ?_⟩
  · rw [nodeKeys_cons]
    exact List.nodup_cons.2 ⟨hkey, hn⟩
  · intro x
    rw [nodeKeys_cons, List.mem_cons, List.mem_cons]
    constructor
    · rintro (hx | hx)
      · exact Or.inl hx
      · exact Or.inr ((hiff x).1 hx)
    · rintro (hx | hx)
      · exact Or.inl hx
      · exact Or.inr ((hiff x).2 hx)

lemma Set_WF {V : Type} {shard : lruCacheShard V} (h : ShardWF shard)
    (cacheLen : Int) (key : String) (value : V) (ttl : Nat) :
    ShardWF (shard.Set cacheLen key value ttl).1 := by
  obtain ⟨hl, hn, hiff⟩ := h
  rw [lruCacheShard.Set]
  simp only
  cases hlook : lookupNode shard.nodes key with
  | some vt =>
      simp only
      refine ⟨nodup_moveToFront hl, ?_, ?_⟩
      · rw [nodeKeys_update]; exact hn
      · intro x; rw [nodeKeys_update, mem_moveToFront]; exact hiff x
  | none =>
      have hkey : key ∉ nodeKeys shard.nodes := (lookupNode_eq_none _ _).1 hlook
      have hwf2 := WF_pushFront ⟨hl, hn, hiff⟩ hkey value ttl (shard.nodesPool - 1)
      simp only
      by_cases hcap : cacheLen ≥ ((shard.maxItems : Nat) : Int)
      · rw [if_pos hcap]
        exact removeItemOldest_WF hwf2
      · rw [if_neg hcap]
        exact hwf2

lemma Get_WF {V : Type} {shard : lruCacheShard V} (h : ShardWF shard)
    (key : String) : ShardWF (shard.Get key).1 := by
  obtain ⟨hl, hn, hiff⟩ := h
  rw [lruCacheShard.Get]
  cases hlook : lookupNode shard.nodes key with
  | some vt =>
      obtain ⟨v, t⟩ := vt
      refine ⟨nodup_moveToFront hl, hn, ?_⟩
      intro x; rw [mem_moveToFront]; exact hiff x
  | none => exact ⟨hl, hn, hiff⟩

lemma Remove_WF {V : Type} {shard : lruCacheShard V} (h : ShardWF shard)
    (key : String) : ShardWF (shard.Remove key).1 := by
  rw [lruCacheShard.Remove]
  cases hlook : lookupNode shard.nodes key with
  | some vt => exact removeItem_WF h key
  | none => exact h

lemma cleanupLoop_WF {V : Type} (items : List (String × V × Nat)) (now : Nat) :
    ∀ {shard : lruCacheShard V}, ShardWF shard →
      ShardWF (lruCacheShard.cleanupLoop shard items now).1 := by
  induction items with
  | nil => intro shard h; exact h
  | cons e rest ih =>
      intro shard h
      obtain ⟨k, v, t⟩ := e
      rw [lruCacheShard.cleanupLoop]
      by_cases hc : t < now ∧ t ≠ 0
      · rw [if_pos hc]
        exact ih (removeItem_WF h k)
      · rw [if_neg hc]
        exact ih h

lemma Purge_WF {V : Type} (shard : lruCacheShard V) : ShardWF shard.Purge := by
  refine ⟨List.nodup_nil, List.nodup_nil, ?_⟩
  intro x
  simp [lruCacheShard.Purge, nodeKeys]

lemma applyShardOp_WF {V : Type} {shard : lruCacheShard V} (h : ShardWF shard)
    (op : ShardOp V) : ShardWF (applyShardOp shard op) := by
  cases op with
  | set cacheLen key value ttl => exact Set_WF h cacheLen key value ttl
  | get key => exact Get_WF h key
  | peek key => exact h
  | contains key => exact h
  | remove key => exact Remove_WF h key
  | cleanup now => exact cleanupLoop_WF _ now h
  | purge => exact Purge_WF shard

lemma runShardOps_WF {V : Type} (ops : List (ShardOp V)) :
    ∀ {shard : lruCacheShard V}, ShardWF shard → ShardWF (runShardOps shard ops) := by
  induction ops with
  | nil => intro shard h; exact h
  | cons op rest ih => intro shard h; exact ih (applyShardOp_WF h op)

lemma newLRUCacheShard_WF {V : Type} (config : Config V) :
    ShardWF (newLRUCacheShard config) := by
  refine ⟨List.nodup_nil, List.nodup_nil, ?_⟩
  intro x
  simp [newLRUCacheShard, nodeKeys]

lemma ShardWF_length {V : Type} {shard : lruCacheShard V} (h : ShardWF shard) :
    shard.nodes.length = shard.list.length := by
  obtain ⟨hl, hn, hiff⟩ := h
  have hperm : (nodeKeys shard.nodes).Perm shard.list :=
    (List.perm_ext_iff_of_nodup hn hl).2 (fun a => ((hiff a).symm))
  have := hperm.length_eq
  simpa [nodeKeys] using this

/-! ### Characterization of the cleanup sweep -/

lemma cleanupLoop_count {V : Type} (items : List (String × V × Nat)) (now : Nat) :
    ∀ shard : lruCacheShard V,
      (lruCacheShard.cleanupLoop shard items now).2.1 =
        (items.filter (ttlExpired now)).length := by
  induction items with
  | nil => intro shard; rfl
  | cons e rest ih =>
      intro shard
      obtain ⟨k, v, t⟩ := e
      rw [lruCacheShard.cleanupLoop]
      by_cases hc : t < now ∧ t ≠ 0
      · rw [if_pos hc]
        simp only [List.filter_cons]
        rw [show ttlExpired now (k, v, t) = true from by simpa [ttlExpired] using hc]
        simp [ih]
      · rw [if_neg hc]
        simp only [List.filter_cons]
        rw [show ttlExpired now (k, v, t) = false from by simpa [ttlExpired] using hc]
        simp [ih]

lemma cleanupLoop_nodes {V : Type} (items : List (String × V × Nat)) (now : Nat) :
    ∀ shard : lruCacheShard V,
      (lruCacheShard.cleanupLoop shard items now).1.nodes =
        shard.nodes.filter
          (fun e => decide (e.1 ∉ nodeKeys (items.filter (ttlExpired now)))) := by
  induction items with
  | nil =>
      intro shard
      simp [lruCacheShard.cleanupLoop, nodeKeys]
  | cons e rest ih =>
      intro shard
      obtain ⟨k, v, t⟩ := e
      rw [lruCacheShard.cleanupLoop]
      by_cases hc : t < now ∧ t ≠ 0
      · rw [if_pos hc]
        simp only
        rw [ih]
        rw [lruCacheShard.removeItem]
        simp only
        rw [List.filter_filter]
        apply List.filter_congr
        intro x hx
        simp only [List.filter_cons]
        rw [show ttlExpired now (k, v, t) = true from by simpa [ttlExpired] using hc]
        simp only [if_true, nodeKeys_cons, List.mem_cons, cond_true]
        rw [Bool.and_comm]
        simp [not_or, And.comm]
      · rw [if_neg hc]
        rw [ih]
        apply List.filter_congr
        intro x hx
        simp only [List.filter_cons]
        rw [show ttlExpired now (k, v, t) = false from by simpa [ttlExpired] using hc]
        simp


lemma CleanupShard_nodes {V : Type} (shard : lruCacheShard V) (now : Nat)
    (hnd : (nodeKeys shard.nodes).Nodup) :
    (shard.CleanupShard now).1.nodes =
      shard.nodes.filter (fun e => !(ttlExpired now e)) := by
  rw [lruCacheShard.CleanupShard, cleanupLoop_nodes]
  apply List.filter_congr
  intro x hx
  by_cases hexp : ttlExpired now x = true
  · rw [hexp]
    have hk : x.1 ∈ nodeKeys (shard.nodes.filter (ttlExpired now)) :=
      (mem_nodeKeys _ _).2 ⟨x, List.mem_filter.2 ⟨hx, hexp⟩, rfl⟩
    simp [hk]
  · rw [Bool.eq_false_iff.2 hexp]
    have hk : x.1 ∉ nodeKeys (shard.nodes.filter (ttlExpired now)) := by
      intro hmem
      obtain ⟨y, hy, hyx⟩ := (mem_nodeKeys _ _).1 hmem
      have hyn := (List.mem_filter.1 hy).1
      have := eq_of_nodupKeys_of_mem hnd hyn hx hyx
      subst this
      exact hexp (List.mem_filter.1 hy).2
    simp [hk]

lemma CleanupShard_count {V : Type} (shard : lruCacheShard V) (now : Nat) :
    (shard.CleanupShard now).2.1 =
      (shard.nodes.filter (ttlExpired now)).length := by
  rw [lruCacheShard.CleanupShard, cleanupLoop_count]

/-! ### Claim theorems -/

set_option maxRecDepth 1000000 in
/-- C1: the claim states that for every key the index computed by the default
shard-routing function generateShardId(key, maxItems) is a valid index into
the shard array (0 <= index < shardCount), so the public operations never
abort.  This is false: under the default configuration (256 shards, max-items
one million) the key "a" is routed to shard 370108, and Set on a fresh
default cache panics with an index-out-of-range on the shard array. -/
theorem claim1_default_routing_panics :
    ¬ (generateShardId "a" defaultConfig.MaxItems < defaultConfig.MaxShards) ∧
      generateShardId "a" defaultConfig.MaxItems = 370108 ∧
      LRUCache.Set (NewLRUCache defaultConfig) "a" 0 = GoResult.panics := by
  refine ⟨by decide, by decide, ?_⟩
  rfl

/-- C2: the claim states that a Set on an already-present key (an update)
leaves the approximate total counter unchanged.  This is false: the shard
set reports no eviction for an update, and the orchestrator then increments
the counter unconditionally, so after setting the same key twice the counter
reads 2 while the shards hold a single entry. -/
theorem claim2_update_set_increments_total :
    (runCacheOps (NewLRUCache oneShardConfig) [CacheOp.set "k" 1]).len = 1 ∧
      (runCacheOps (NewLRUCache oneShardConfig)
        [CacheOp.set "k" 1, CacheOp.set "k" 2]).len = 2 ∧
      ((runCacheOps (NewLRUCache oneShardConfig)
        [CacheOp.set "k" 1, CacheOp.set "k" 2]).shards.map
          (fun s => (s.nodes.length : Int))).sum = 1 := by
  refine ⟨by decide, by decide, by decide⟩

/-- C3: the claim states that with telemetry enabled in the configuration,
after one set of a new key, one hit and one miss, Telemetry() succeeds and
its aggregated snapshot reads add=1, hit=1, miss=1, update=0, evict=0.  This
is false: the constructor never copies TelemetryOn into the cache struct, so
Telemetry() always returns the disabled error; moreover no operation ever
increments a shard counter, so every shard snapshot is still all zeroes. -/
theorem claim3_telemetry_call_fails :
    LRUCache.Telemetry (runCacheOps (NewLRUCache oneShardConfig)
        [CacheOp.set "a" 1, CacheOp.get "a", CacheOp.get "b"])
      = GoResult.fails "cache telemetry is disabled" ∧
      (runCacheOps (NewLRUCache oneShardConfig)
        [CacheOp.set "a" 1, CacheOp.get "a", CacheOp.get "b"]).shards.map
          (fun s => s.telem) = [newTelemetry] := by
  refine ⟨by decide, by decide⟩

/-- C4: for every sequence of shard operations (set, get, peek, contains,
remove, cleanup, purge) starting from a freshly constructed shard, after
each operation completes the number of entries in the shard's map equals the
length of the recency list, and a key is in the map exactly when it is
linked in the list. -/
theorem claim4_shard_dual_index_invariant {V : Type} (config : Config V)
    (ops : List (ShardOp V)) :
    (runShardOps (newLRUCacheShard config) ops).nodes.length =
        (runShardOps (newLRUCacheShard config) ops).list.length ∧
      ∀ k, k ∈ nodeKeys (runShardOps (newLRUCacheShard config) ops).nodes ↔
        k ∈ (runShardOps (newLRUCacheShard config) ops).list := by
  have h := runShardOps_WF ops (newLRUCacheShard_WF config)
  exact ⟨ShardWF_length h, fun k => (h.2.2 k).symm⟩

/-- C5: LRU eviction order with capacity two and the cache-wide count at the
threshold: inserting A, B, C evicts A when C is inserted; if A is read via
get after B and before C, inserting C evicts B instead. -/
theorem claim5_lru_eviction_order :
    LRUCache.Contains (runCacheOps (NewLRUCache capacityTwoConfig)
        [CacheOp.set "A" 1, CacheOp.set "B" 2, CacheOp.set "C" 3]) "A"
      = GoResult.ok false ∧
    LRUCache.Contains (runCacheOps (NewLRUCache capacityTwoConfig)
        [CacheOp.set "A" 1, CacheOp.set "B" 2, CacheOp.set "C" 3]) "B"
      = GoResult.ok true ∧
    LRUCache.Contains (runCacheOps (NewLRUCache capacityTwoConfig)
        [CacheOp.set "A" 1, CacheOp.set "B" 2, CacheOp.set "C" 3]) "C"
      = GoResult.ok true ∧
    LRUCache.Contains (runCacheOps (NewLRUCache capacityTwoConfig)
        [CacheOp.set "A" 1, CacheOp.set "B" 2, CacheOp.get "A", CacheOp.set "C" 3]) "A"
      = GoResult.ok true ∧
    LRUCache.Contains (runCacheOps (NewLRUCache capacityTwoConfig)
        [CacheOp.set "A" 1, CacheOp.set "B" 2, CacheOp.get "A", CacheOp.set "C" 3]) "B"
      = GoResult.ok false ∧
    LRUCache.Contains (runCacheOps (NewLRUCache capacityTwoConfig)
        [CacheOp.set "A" 1, CacheOp.set "B" 2, CacheOp.get "A", CacheOp.set "C" 3]) "C"
      = GoResult.ok true := by
  refine ⟨by decide, by decide, by decide, by decide, by decide, by decide⟩

/-- C6: the claim states that in sequential executions the total counter
returned by Len() equals the sum of the shard map sizes after each
operation.  This is false: the cleanup fan-out adds each shard's evict count
to the counter instead of subtracting it, so after one TTL insert and one
expiring sweep the counter reads 2 while the shards are empty. -/
theorem claim6_total_counter_diverges :
    (runCacheOps (NewLRUCache oneShardConfig)
        [CacheOp.setWithTTL 0 "k" 1 5, CacheOp.cleanup 10]).len = 2 ∧
      ((runCacheOps (NewLRUCache oneShardConfig)
        [CacheOp.setWithTTL 0 "k" 1 5, CacheOp.cleanup 10]).shards.map
          (fun s => (s.nodes.length : Int))).sum = 0 := by
  refine ⟨by decide, by decide⟩

/-- C7 counterexample: the claim states that after a cleanup sweep run at or
after an entry's expiry the entry is absent from contains.  At a sweep run
exactly at the expiry instant this fails: the sweep removes only entries
whose expiry is strictly before now, so an entry expiring at tick 5 is still
reported present by contains after a sweep at tick 5. -/
theorem claim7_counterexample_cleanup_at_expiry :
    (lruCacheShard.Contains
        (lruCacheShard.CleanupShard ttlDemoShard 5).1 "k").1 = true := by
  decide

/-- C7 (amended): TTL is never enforced by read operations — get, peek and
contains report an entry present (with its value) regardless of its expiry
as long as no cleanup removed it — and after a cleanup sweep run strictly
after the entry's non-zero expiry, the entry is absent from contains. -/
theorem claim7_ttl_sweep_only {V : Type} (shard : lruCacheShard V)
    (key : String) (value : V) (expiry : Nat)
    (hnd : (nodeKeys shard.nodes).Nodup)
    (hmem : (key, value, expiry) ∈ shard.nodes) :
    (shard.Get key).2.1 = some value ∧
      (shard.Peek key).1 = some value ∧
      (shard.Contains key).1 = true ∧
      ∀ now, expiry ≠ 0 → expiry < now →
        ((lruCacheShard.CleanupShard shard now).1.Contains key).1 = false := by
  have hlook := lookupNode_of_mem hnd hmem
  refine ⟨?_, ?_, ?_, ?_⟩
  · rw [lruCacheShard.Get, hlook]
  · rw [lruCacheShard.Peek, hlook]
  · rw [lruCacheShard.Contains, hlook]
  · intro now h0 hlt
    have hnone : lookupNode (lruCacheShard.CleanupShard shard now).1.nodes key = none := by
      rw [lookupNode_eq_none, CleanupShard_nodes shard now hnd]
      intro hkmem
      obtain ⟨y, hy, hyk⟩ := (mem_nodeKeys _ _).1 hkmem
      have hyn := (List.mem_filter.1 hy).1
      have heq : y = (key, value, expiry) := eq_of_nodupKeys_of_mem hnd hyn hmem hyk
      have hflag := (List.mem_filter.1 hy).2
      rw [heq] at hflag
      simp [ttlExpired, hlt, h0] at hflag
    rw [lruCacheShard.Contains, hnone]

/-- C7 witness: the amended theorem applied to a concrete shard holding one
entry with expiry tick 5, with the sweep quantifier usable at tick 6. -/
theorem claim7_witness :
    ((nodeKeys ttlDemoShard.nodes).Nodup ∧ ("k", 7, 5) ∈ ttlDemoShard.nodes) ∧
      (lruCacheShard.Get ttlDemoShard "k").2.1 = some 7 ∧
      (lruCacheShard.Peek ttlDemoShard "k").1 = some 7 ∧
      (lruCacheShard.Contains ttlDemoShard "k").1 = true ∧
      ∀ now, (5 : Nat) ≠ 0 → 5 < now →
        ((lruCacheShard.CleanupShard ttlDemoShard now).1.Contains "k").1 = false :=
  ⟨⟨by decide, by decide⟩,
   claim7_ttl_sweep_only ttlDemoShard "k" 7 5 (by decide) (by decide)⟩

/-- C8: the shard cleanup sweep at time now removes exactly the entries whose
expiry is non-zero and strictly before now, returns the number it removed,
and never removes an entry whose expiry is the zero value. -/
theorem claim8_cleanup_spec {V : Type} (shard : lruCacheShard V) (now : Nat)
    (hnd : (nodeKeys shard.nodes).Nodup) :
    (lruCacheShard.CleanupShard shard now).1.nodes =
        shard.nodes.filter (fun e => !(ttlExpired now e)) ∧
      (lruCacheShard.CleanupShard shard now).2.1 =
        (shard.nodes.filter (ttlExpired now)).length ∧
      ∀ e ∈ shard.nodes, e.2.2 = 0 → e ∈ (lruCacheShard.CleanupShard shard now).1.nodes := by
  have hnodes := CleanupShard_nodes shard now hnd
  refine ⟨hnodes, CleanupShard_count shard now, ?_⟩
  intro e he h0
  rw [hnodes]
  refine List.mem_filter.2 ⟨he, ?_⟩
  simp [ttlExpired, h0]

/-- C8 witness: the cleanup theorem applied to a concrete shard holding one
expired entry and one never-expiring entry, swept at tick 10. -/
theorem claim8_witness :
    (nodeKeys cleanupDemoShard.nodes).Nodup ∧
      (lruCacheShard.CleanupShard cleanupDemoShard 10).1.nodes =
        cleanupDemoShard.nodes.filter (fun e => !(ttlExpired 10 e)) ∧
      (lruCacheShard.CleanupShard cleanupDemoShard 10).2.1 =
        (cleanupDemoShard.nodes.filter (ttlExpired 10)).length ∧
      ∀ e ∈ cleanupDemoShard.nodes, e.2.2 = 0 →
        e ∈ (lruCacheShard.CleanupShard cleanupDemoShard 10).1.nodes :=
  ⟨by decide, claim8_cleanup_spec cleanupDemoShard 10 (by decide)⟩

/-- C9 counterexample: the claim states that removing a present key emits no
evict telemetry event (the evict hook is not invoked) and pools the entry.
This is false: shard Remove goes through removeItem, which invokes the
onEvict hook whenever telemetry is on, and no removal path ever returns the
node to the pool (the pooled count is unchanged). -/
theorem claim9_counterexample_remove_fires_evict :
    (lruCacheShard.Remove removeDemoShard "k").2.2 = [CacheEvent.evict "k"] ∧
      (lruCacheShard.Remove removeDemoShard "k").1.nodesPool =
        removeDemoShard.nodesPool := by
  refine ⟨by decide, by decide⟩

/-- C9 (amended): removing a present key unlinks its entry (without
returning it to the pool) and invokes the evict hook when telemetry is
enabled; the shard's evict counter itself is never modified.  Removing an
absent key invokes the miss hook, changes nothing and returns false. -/
theorem claim9_remove_spec {V : Type} (shard : lruCacheShard V) (key : String) :
    (key ∈ nodeKeys shard.nodes →
        (shard.Remove key).2.1 = true ∧
        key ∉ nodeKeys (shard.Remove key).1.nodes ∧
        (shard.Remove key).2.2 =
          (if shard.telemetryOn then [CacheEvent.evict key] else []) ∧
        (shard.Remove key).1.nodesPool = shard.nodesPool ∧
        (shard.Remove key).1.telem = shard.telem) ∧
      (key ∉ nodeKeys shard.nodes →
        (shard.Remove key).2.1 = false ∧
        (shard.Remove key).1 = shard ∧
        (shard.Remove key).2.2 =
          (if shard.telemetryOn then [CacheEvent.miss key] else [])) := by
  constructor
  · intro hmem
    obtain ⟨vt, hvt⟩ : ∃ vt, lookupNode shard.nodes key = some vt := by
      cases hl : lookupNode shard.nodes key with
      | none => exact absurd hmem ((lookupNode_eq_none _ _).1 hl)
      | some vt => exact ⟨vt, rfl⟩
    rw [lruCacheShard.Remove, hvt]
    refine ⟨rfl, ?_, rfl, rfl, rfl⟩
    show key ∉ nodeKeys (shard.removeItem key).1.nodes
    rw [lruCacheShard.removeItem]
    simp only
    rw [nodeKeys_filter_ne]
    intro hk
    have := (List.mem_filter.1 hk).2
    simp at this
  · intro hmem
    have hl : lookupNode shard.nodes key = none := (lookupNode_eq_none _ _).2 hmem
    rw [lruCacheShard.Remove, hl]
    exact ⟨rfl, rfl, rfl⟩

/-- C9 witness: the amended theorem applied to a concrete shard, once for
its present key and once for an absent key. -/
theorem claim9_witness :
    ("k" ∈ nodeKeys removeDemoShard.nodes ∧ "z" ∉ nodeKeys removeDemoShard.nodes) ∧
      ((lruCacheShard.Remove removeDemoShard "k").2.1 = true ∧
        "k" ∉ nodeKeys (lruCacheShard.Remove removeDemoShard "k").1.nodes ∧
        (lruCacheShard.Remove removeDemoShard "k").2.2 =
          (if removeDemoShard.telemetryOn then [CacheEvent.evict "k"] else []) ∧
        (lruCacheShard.Remove removeDemoShard "k").1.nodesPool =
          removeDemoShard.nodesPool ∧
        (lruCacheShard.Remove removeDemoShard "k").1.telem = removeDemoShard.telem) ∧
      ((lruCacheShard.Remove removeDemoShard "z").2.1 = false ∧
        (lruCacheShard.Remove removeDemoShard "z").1 = removeDemoShard ∧
        (lruCacheShard.Remove removeDemoShard "z").2.2 =
          (if removeDemoShard.telemetryOn then [CacheEvent.miss "z"] else [])) :=
  ⟨⟨by decide, by decide⟩,
   (claim9_remove_spec removeDemoShard "k").1 (by decide),
   (claim9_remove_spec removeDemoShard "z").2 (by decide)⟩

/-- C10: when Set inserts a brand-new key while the supplied cache-wide
length is at or above maxItems and the shard holds no other entry, the
freshly inserted entry is itself the back of the recency list and is evicted
immediately: Set reports an eviction (and no addition) and the shard is
empty when the operation completes. -/
theorem claim10_insert_at_capacity_self_evicts {V : Type}
    (shard : lruCacheShard V) (cacheLen : Int) (key : String) (value : V)
    (ttl : Nat) (hempty : shard.nodes = []) (hlist : shard.list = [])
    (hcap : cacheLen ≥ (shard.maxItems : Int)) :
    (shard.Set cacheLen key value ttl).2.1 = true ∧
      (shard.Set cacheLen key value ttl).2.2.1 = false ∧
      (shard.Set cacheLen key value ttl).1.nodes = [] ∧
      (shard.Set cacheLen key value ttl).1.list = [] := by
  obtain ⟨mi, lo, ton, li, po, no, te⟩ := shard
  simp only at hempty hlist hcap
  subst hempty
  subst hlist
  rw [lruCacheShard.Set]
  simp only [lookupNode]
  rw [if_pos hcap]
  simp [lruCacheShard.removeItemOldest, lruCacheShard.removeItem]

/-- C10 witness: the self-eviction theorem applied to a fresh shard of the
capacity-two configuration with the cache-wide length already at two. -/
theorem claim10_witness :
    ((newLRUCacheShard capacityTwoConfig).nodes = [] ∧
        (newLRUCacheShard capacityTwoConfig).list = [] ∧
        (2 : Int) ≥ ((newLRUCacheShard capacityTwoConfig).maxItems : Int)) ∧
      (lruCacheShard.Set (newLRUCacheShard capacityTwoConfig) 2 "k" 9 0).2.1 = true ∧
      (lruCacheShard.Set (newLRUCacheShard capacityTwoConfig) 2 "k" 9 0).2.2.1 = false ∧
      (lruCacheShard.Set (newLRUCacheShard capacityTwoConfig) 2 "k" 9 0).1.nodes = [] ∧
      (lruCacheShard.Set (newLRUCacheShard capacityTwoConfig) 2 "k" 9 0).1.list = [] :=
  ⟨⟨rfl, rfl, by decide⟩,
   claim10_insert_at_capacity_self_evicts (newLRUCacheShard capacityTwoConfig)
     2 "k" 9 0 rfl rfl (by decide)⟩
